import Mathlib

/-!
Shallow embedding of `src/micmac/viz_matches.py` (function `show_micmac_matches`)
from the `franioli/stereosat` repository, together with proofs about the
pairwise match-visualization batch pipeline it implements.

Paths are modelled as plain strings (POSIX-style, components joined by `"/"`);
the filesystem is an abstract state listing the directories and files that
exist.  The external rendering collaborator `mm.show_micmac_matches` is opaque:
a call to it is recorded as an event carrying the exact positional and keyword
arguments the Python code passes.  `glob` is external as well, so the list of
paths it returns is an input of the model; the source code only sorts it.
-/

namespace VizMatches

/-- Join a path and one further component, as Python's `Path.__truediv__`
with a single-component right operand. -/
def pjoin (a b : String) : String := a ++ "/" ++ b

/-- Split a character list at `'/'` separators (accumulator holds the current
component reversed). -/
def splitSlashAux : List Char → List Char → List (List Char)
  | [], acc => [acc.reverse]
  | c :: cs, acc =>
    if c = '/' then acc.reverse :: splitSlashAux cs []
    else splitSlashAux cs (c :: acc)

/-- The `"/"`-separated components of a path string. -/
def splitSlash (s : String) : List String :=
  (splitSlashAux s.data []).map String.mk

/-- Join components with `"/"`. -/
def joinSlash : List String → String
  | [] => ""
  | [x] => x
  | x :: y :: xs => x ++ "/" ++ joinSlash (y :: xs)

/-- The final path component, as Python's `Path.name`. -/
def baseName (s : String) : String :=
  (splitSlash s).getLastD s

/-- The strict ancestors of a path, shortest first: for `"a/b/c"` this is
`["a", "a/b"]`.  These are the directories `mkdir(parents=True)` may have to
create besides the path itself. -/
def parentPaths (s : String) : List String :=
  let parts := (splitSlash s).dropLast
  (List.range parts.length).map (fun k => joinSlash (parts.take (k + 1)))

/-- Abstract filesystem state: which paths exist as directories and which as
regular files. -/
structure FS where
  dirs : List String
  files : List String
deriving DecidableEq, Repr

/-- `Path.exists()`: the path is present as a directory or as a file. -/
def FS.pathExists (fs : FS) (p : String) : Bool :=
  fs.dirs.contains p || fs.files.contains p

/-- `Path.mkdir(exist_ok=True, parents=True)`: succeed without change if the
directory already exists; fail if the path or an ancestor exists as a regular
file; otherwise create the directory together with every missing ancestor. -/
def FS.mkdirP (fs : FS) (p : String) : Except String FS :=
  if fs.dirs.contains p then .ok fs
  else if (parentPaths p ++ [p]).any (fun q => fs.files.contains q) then .error p
  else .ok { fs with
    dirs := fs.dirs ++ (parentPaths p ++ [p]).filter (fun q => !(fs.dirs.contains q)) }

/-- A Python value passed to the rendering collaborator. -/
inductive Val where
  | vpath (p : String)
  | vstr (s : String)
deriving DecidableEq, Repr

/-- One invocation of the opaque collaborator `mm.show_micmac_matches`,
recorded as the positional argument list and the keyword argument list the
Python call site passes. -/
structure Call where
  pos : List Val
  kw : List (String × Val)
deriving DecidableEq, Repr

/-- Observable events of one run: `print` output, a match-record existence
check with its result, and a rendering call. -/
inductive Event where
  | msg (s : String)
  | checkRecord (p : String) (found : Bool)
  | render (c : Call)
deriving DecidableEq, Repr

/-- How the run ends: normal return of `None`, a `FileNotFoundError` with its
message, or a `FileExistsError` from `mkdir` hitting a regular file. -/
inductive Outcome where
  | ok
  | fnfError (message : String)
  | feError (p : String)
deriving DecidableEq, Repr

/-- `itertools.combinations(l, 2)`, in its enumeration order. -/
def combinations2 {α : Type} : List α → List (α × α)
  | [] => []
  | x :: xs => xs.map (fun y => (x, y)) ++ combinations2 xs

/-- The order `sorted(...)` uses on `Path` objects: lexicographic comparison
of the path strings by Unicode code point, expressed on the underlying
character lists. -/
def pathLe (a b : String) : Prop := a.data ≤ b.data

instance : DecidableRel pathLe := fun a b => inferInstanceAs (Decidable (a.data ≤ b.data))

instance : IsTotal String pathLe := ⟨fun a b => le_total a.data b.data⟩

instance : IsTrans String pathLe := ⟨fun _ _ _ h h' => le_trans h h'⟩

instance : IsAntisymm String pathLe :=
  ⟨fun a b h h' => by
    cases a; cases b
    exact congrArg String.mk (le_antisymm h h')⟩

/-- `sorted(...)` applied to the paths the glob returned: Python sorts `Path`
objects by their (case-normalized) path string. -/
def sortedPaths (l : List String) : List String :=
  List.insertionSort pathLe l

/-- The events of one successful sequential iteration of the loop body for the
pair `(i0, i1)`: the progress `print`, the existence check, the rendering call
with keyword arguments `i0_name`, `i1_name`, `out` and the forwarded `kwargs`,
and the completion `print`. -/
def seqOkEvents (homolPath projectPath matchesDir : String)
    (kwargs : List (String × Val)) (i0 i1 : String) : List Event :=
  let matchesPath := pjoin (pjoin homolPath ("Pastis" ++ baseName i0)) (baseName i1 ++ ".txt")
  [.msg ("Exporting matches between " ++ baseName i0 ++ " and " ++ baseName i1),
   .checkRecord matchesPath true,
   .render
     { pos := [.vpath matchesPath, .vpath projectPath],
       kw := [("i0_name", .vstr (baseName i0)), ("i1_name", .vstr (baseName i1)),
              ("out", .vpath (pjoin matchesDir
                ("matches_" ++ baseName i0 ++ "-" ++ baseName i1 ++ ".png")))] ++ kwargs },
   .msg "Done."]

/-- The `if not parallel` branch of `show_micmac_matches`: iterate over the
pairs in enumeration order; for each pair print progress, resolve the match
record path, raise `FileNotFoundError` if it is absent, otherwise call the
collaborator and print completion. -/
def runSeqPairs (homolPath projectPath matchesDir : String)
    (kwargs : List (String × Val)) (fs : FS) :
    List (String × String) → Outcome × List Event
  | [] => (.ok, [])
  | (i0, i1) :: rest =>
    let matchesPath := pjoin (pjoin homolPath ("Pastis" ++ baseName i0)) (baseName i1 ++ ".txt")
    if fs.pathExists matchesPath then
      let (o, evs) := runSeqPairs homolPath projectPath matchesDir kwargs fs rest
      (o, seqOkEvents homolPath projectPath matchesDir kwargs i0 i1 ++ evs)
    else
      (.fnfError ("Matches file " ++ matchesPath ++ " does not exist"),
       [.msg ("Exporting matches between " ++ baseName i0 ++ " and " ++ baseName i1),
        .checkRecord matchesPath false])

/-- The `else` branch of `show_micmac_matches`: build the `params` list of
3-tuples `(matches_path, project_path, out_path)` and dispatch
`p.starmap(mm.show_micmac_matches, params)`, which calls the collaborator with
exactly those three positional arguments and no keyword arguments.  No
existence check is performed for any pair. -/
def parParams (homolPath projectPath matchesDir : String)
    (pairs : List (String × String)) : List (String × String × String) :=
  pairs.map (fun pr =>
    (pjoin (pjoin homolPath ("Pastis" ++ baseName pr.1)) (baseName pr.2 ++ ".txt"),
     projectPath,
     pjoin matchesDir ("matches_" ++ baseName pr.1 ++ "-" ++ baseName pr.2 ++ ".png")))

/-- Model of `show_micmac_matches(project_dir, img_pattern, parallel, **kwargs)`.
`globMatches` is the list of paths `project_path.glob(img_pattern)` yields
(the glob itself is external); the result is the outcome, the event trace, and
the final filesystem state. -/
def showMicmacMatches (parallel : Bool) (projectDir : String)
    (globMatches : List String) (kwargs : List (String × Val)) (fs : FS) :
    Outcome × List Event × FS :=
  let projectPath := projectDir
  if !(fs.pathExists projectPath) then
    (.fnfError ("Project path " ++ projectPath ++ " does not exist"), [], fs)
  else
    let homolPath := pjoin projectPath "Homol"
    if !(fs.pathExists homolPath) then
      (.fnfError ("Homol path " ++ homolPath ++ " does not exist"), [], fs)
    else
      let images := sortedPaths globMatches
      let matchesDir := pjoin projectPath "match_figs"
      match fs.mkdirP matchesDir with
      | .error p => (.feError p, [], fs)
      | .ok fs' =>
        if !parallel then
          let (o, evs) := runSeqPairs homolPath projectPath matchesDir kwargs fs'
            (combinations2 images)
          (o, evs, fs')
        else
          (.ok,
           (parParams homolPath projectPath matchesDir (combinations2 images)).map
             (fun t => .render { pos := [.vpath t.1, .vpath t.2.1, .vpath t.2.2], kw := [] }),
           fs')

/-- Trace of a run of consecutive successful sequential iterations. -/
def seqOkTrace (homolPath projectPath matchesDir : String)
    (kwargs : List (String × Val)) : List (String × String) → List Event
  | [] => []
  | pr :: rest =>
    seqOkEvents homolPath projectPath matchesDir kwargs pr.1 pr.2 ++
      seqOkTrace homolPath projectPath matchesDir kwargs rest

/-- The collaborator invocations contained in an event trace. -/
def renderCalls (evs : List Event) : List Call :=
  evs.filterMap (fun e => match e with | .render c => some c | _ => none)

/-- The existence checks contained in an event trace. -/
def recordChecks (evs : List Event) : List (String × Bool) :=
  evs.filterMap (fun e => match e with | .checkRecord p b => some (p, b) | _ => none)

/-- The name of an image contains no `'-'` character. -/
def hyphenFree (s : String) : Prop := ('-') ∉ s.data

instance (s : String) : Decidable (hyphenFree s) :=
  inferInstanceAs (Decidable (('-') ∉ s.data))

/-- Following the spec's words: the Match Record of the pair `(i0, i1)` is
located at `<project_dir>/Homol/Pastis<i0.name>/<i1.name>.txt`. -/
def specMatchRecordPath (projectDir n0 n1 : String) : String :=
  projectDir ++ "/Homol/Pastis" ++ n0 ++ "/" ++ n1 ++ ".txt"

/-- Following the spec's words: the Visualization Artifact of the pair
`(i0, i1)` is written to `<project_dir>/match_figs/matches_<i0.name>-<i1.name>.png`. -/
def specVizArtifactPath (projectDir n0 n1 : String) : String :=
  projectDir ++ "/match_figs/matches_" ++ n0 ++ "-" ++ n1 ++ ".png"

/-! ### Pair enumeration: facts about `combinations2` -/

theorem combinations2_length {α : Type} (l : List α) :
    (combinations2 l).length = l.length.choose 2 := by
  induction l with
  | nil => rfl
  | cons x xs ih =>
    rw [List.length_cons, Nat.choose_succ_succ, Nat.choose_one_right, ← ih]
    simp [combinations2]

theorem combinations2_mem_index {α : Type} {l : List α} {p : α × α}
    (hp : p ∈ combinations2 l) :
    ∃ i j : Fin l.length, (i : ℕ) < j ∧ p.1 = l.get i ∧ p.2 = l.get j := by
  induction l with
  | nil => simp [combinations2] at hp
  | cons x xs ih =>
    simp only [combinations2, List.mem_append, List.mem_map] at hp
    rcases hp with ⟨y, hy, rfl⟩ | hp
    · rcases List.mem_iff_get.mp hy with ⟨j, rfl⟩
      exact ⟨⟨0, by simp⟩, ⟨j + 1, by simp⟩, by simp, rfl, by simp⟩
    · rcases ih hp with ⟨i, j, hij, h1, h2⟩
      exact ⟨⟨i + 1, by simp⟩, ⟨j + 1, by simp⟩,
        by simpa using hij, by simpa using h1, by simpa using h2⟩

theorem combinations2_mem_fst {α : Type} {l : List α} {p : α × α}
    (hp : p ∈ combinations2 l) : p.1 ∈ l := by
  rcases combinations2_mem_index hp with ⟨i, _, _, h1, _⟩
  exact h1 ▸ l.get_mem _ _

theorem combinations2_mem_snd {α : Type} {l : List α} {p : α × α}
    (hp : p ∈ combinations2 l) : p.2 ∈ l := by
  rcases combinations2_mem_index hp with ⟨_, j, _, _, h2⟩
  exact h2 ▸ l.get_mem _ _

theorem combinations2_no_self {α : Type} {l : List α} (hl : l.Nodup) {p : α × α}
    (hp : p ∈ combinations2 l) : p.1 ≠ p.2 := by
  rcases combinations2_mem_index hp with ⟨i, j, hij, h1, h2⟩
  intro h
  have hij' : i = j := (hl.get_inj_iff).mp (by rw [← h1, ← h2, h])
  rw [Fin.ext_iff] at hij'
  omega

theorem combinations2_no_swap {α : Type} {l : List α} (hl : l.Nodup) {a b : α}
    (hab : (a, b) ∈ combinations2 l) : (b, a) ∉ combinations2 l := by
  intro hba
  rcases combinations2_mem_index hab with ⟨i, j, hij, h1, h2⟩
  rcases combinations2_mem_index hba with ⟨i', j', hij', h1', h2'⟩
  have hji' : j = i' := (hl.get_inj_iff).mp (by rw [← h2, ← h1'])
  have hij'' : i = j' := (hl.get_inj_iff).mp (by rw [← h1, ← h2'])
  rw [Fin.ext_iff] at hji' hij''
  omega

theorem combinations2_nodup {α : Type} {l : List α} (hl : l.Nodup) :
    (combinations2 l).Nodup := by
  induction l with
  | nil => exact List.nodup_nil
  | cons x xs ih =>
    rcases List.nodup_cons.mp hl with ⟨hx, hxs⟩
    refine List.Nodup.append (hxs.map ?_) (ih hxs) ?_
    · intro a b h
      simpa using congrArg Prod.snd h
    · intro p hp hp'
      rcases List.mem_map.mp hp with ⟨y, _, rfl⟩
      exact hx (combinations2_mem_fst hp')

theorem combinations2_nil_of_short {α : Type} {l : List α} (h : l.length ≤ 1) :
    combinations2 l = [] := by
  match l, h with
  | [], _ => rfl
  | [x], _ => rfl

/-! ### Facts about the filesystem model -/

theorem contains_iff {α : Type} [BEq α] [LawfulBEq α] {l : List α} {a : α} :
    l.contains a = true ↔ a ∈ l := by
  simp [List.contains]

theorem mkdirP_of_contains {fs : FS} {p : String} (h : fs.dirs.contains p = true) :
    fs.mkdirP p = .ok fs := by
  unfold FS.mkdirP
  rw [h]
  rfl

theorem mkdirP_ok_contains {fs fs' : FS} {p : String} (h : fs.mkdirP p = .ok fs') :
    fs'.dirs.contains p = true := by
  unfold FS.mkdirP at h
  split at h
  · next h1 =>
      injection h with h2
      subst h2
      exact h1
  · next h1 =>
      split at h
      · simp at h
      · injection h with h2
        subst h2
        simp only [Bool.not_eq_true] at h1
        rw [contains_iff]
        refine List.mem_append_right _ (List.mem_filter.mpr ?_)
        refine ⟨List.mem_append_right _ (List.mem_singleton_self p), ?_⟩
        show (!(fs.dirs.contains p)) = true
        rw [h1]
        rfl

theorem mkdirP_ok_files {fs fs' : FS} {p : String} (h : fs.mkdirP p = .ok fs') :
    fs'.files = fs.files := by
  unfold FS.mkdirP at h
  split at h
  · injection h with h2
    subst h2
    rfl
  · split at h
    · simp at h
    · injection h with h2
      subst h2
      rfl

theorem mkdirP_idem {fs fs' : FS} {p : String} (h : fs.mkdirP p = .ok fs') :
    fs'.mkdirP p = .ok fs' :=
  mkdirP_of_contains (mkdirP_ok_contains h)

theorem mkdirP_ok_parents {fs fs' : FS} {p : String}
    (h0 : fs.dirs.contains p = false) (h : fs.mkdirP p = .ok fs') :
    ∀ q ∈ parentPaths p, fs'.dirs.contains q = true := by
  intro q hq
  unfold FS.mkdirP at h
  split at h
  · next h1 => rw [h0] at h1; exact absurd h1 (by simp)
  · split at h
    · simp at h
    · injection h with h2
      subst h2
      rw [contains_iff]
      by_cases h3 : fs.dirs.contains q = true
      · exact List.mem_append_left _ (contains_iff.mp h3)
      · simp only [Bool.not_eq_true] at h3
        refine List.mem_append_right _ (List.mem_filter.mpr ?_)
        refine ⟨List.mem_append_left _ hq, ?_⟩
        show (!(fs.dirs.contains q)) = true
        rw [h3]
        rfl

/-! ### String facts used for path-naming injectivity -/

theorem strAppend_left_cancel {a b c : String} (h : a ++ b = a ++ c) : b = c := by
  apply String.ext
  have hd : a.data ++ b.data = a.data ++ c.data := by
    simpa [String.data_append] using congrArg String.data h
  exact List.append_cancel_left hd

/-- Splitting a character list at a unique separator is unambiguous. -/
theorem sep_split_unique {c : Char} :
    ∀ {l0 m0 l1 m1 : List Char}, l0 ++ c :: l1 = m0 ++ c :: m1 →
      c ∉ l0 → c ∉ m0 → l0 = m0 ∧ l1 = m1 := by
  intro l0
  induction l0 with
  | nil =>
    intro m0 l1 m1 h _ hm0
    cases m0 with
    | nil => simpa using h
    | cons d m0' =>
      simp only [List.nil_append, List.cons_append, List.cons.injEq] at h
      obtain ⟨rfl, -⟩ := h
      exact absurd (List.mem_cons_self _ _) hm0
  | cons a l0' ih =>
    intro m0 l1 m1 h hl0 hm0
    cases m0 with
    | nil =>
      simp only [List.cons_append, List.nil_append, List.cons.injEq] at h
      obtain ⟨rfl, -⟩ := h
      exact absurd (List.mem_cons_self _ _) hl0
    | cons b m0' =>
      simp only [List.cons_append, List.cons.injEq] at h
      obtain ⟨rfl, h2⟩ := h
      have hr := ih h2 (fun hc => hl0 (List.mem_cons_of_mem _ hc))
        (fun hc => hm0 (List.mem_cons_of_mem _ hc))
      exact ⟨by rw [hr.1], hr.2⟩

/-- The per-pair artifact file name `matches_<n0>-<n1>.png` determines the two
image names, provided the names contain no hyphen. -/
theorem outName_inj {n0 n1 m0 m1 : String}
    (h0 : hyphenFree n0) (h0' : hyphenFree m0)
    (h : "matches_" ++ n0 ++ "-" ++ n1 ++ ".png" = "matches_" ++ m0 ++ "-" ++ m1 ++ ".png") :
    n0 = m0 ∧ n1 = m1 := by
  have hd := congrArg String.data h
  simp only [String.data_append, List.append_assoc] at hd
  have hd' := List.append_cancel_left hd
  simp only [List.singleton_append] at hd'
  have hr := sep_split_unique hd' h0 h0'
  refine ⟨String.ext hr.1, String.ext ?_⟩
  exact List.append_cancel_right hr.2

/-! ### Claim theorems -/

/-- C8: creation of the output directory `match_figs` is idempotent: if the
directory is absent it is created together with any absent parent directories;
if it already exists the call succeeds without error and changes nothing; and
a succeeded creation can be repeated with no further change.  Files are never
touched. -/
theorem C8_mkdir_idempotent (fs : FS) (p : String) :
    (fs.dirs.contains p = true → fs.mkdirP p = .ok fs) ∧
    (∀ fs', fs.dirs.contains p = false → fs.mkdirP p = .ok fs' →
      fs'.dirs.contains p = true ∧ ∀ q ∈ parentPaths p, fs'.dirs.contains q = true) ∧
    (∀ fs', fs.mkdirP p = .ok fs' → fs'.mkdirP p = .ok fs' ∧ fs'.files = fs.files) := by
  refine ⟨mkdirP_of_contains, ?_, ?_⟩
  · intro fs' h0 h
    exact ⟨mkdirP_ok_contains h, mkdirP_ok_parents h0 h⟩
  · intro fs' h
    exact ⟨mkdirP_idem h, mkdirP_ok_files h⟩

theorem C8_mkdir_idempotent_witness :
    (FS.mk ["proj", "proj/match_figs"] []).mkdirP "proj/match_figs" =
      .ok (FS.mk ["proj", "proj/match_figs"] []) :=
  (C8_mkdir_idempotent (FS.mk ["proj", "proj/match_figs"] []) "proj/match_figs").1 (by decide)

/-- C4: `show_micmac_matches` raises a not-found error if the project
directory does not exist, and otherwise raises a not-found error if the
`Homol` subdirectory does not exist; in either case the reported message names
the missing path, no event is produced (no discovery, no pair processing, no
rendering call) and the filesystem is left unchanged (in particular the
output directory is not created). -/
theorem C4_precondition_checks (parallel : Bool) (projectDir : String)
    (globMatches : List String) (kwargs : List (String × Val)) (fs : FS) :
    (fs.pathExists projectDir = false →
      showMicmacMatches parallel projectDir globMatches kwargs fs =
        (.fnfError ("Project path " ++ projectDir ++ " does not exist"), [], fs)) ∧
    (fs.pathExists projectDir = true →
      fs.pathExists (pjoin projectDir "Homol") = false →
      showMicmacMatches parallel projectDir globMatches kwargs fs =
        (.fnfError ("Homol path " ++ pjoin projectDir "Homol" ++ " does not exist"),
         [], fs)) := by
  constructor
  · intro h
    simp [showMicmacMatches, h]
  · intro h1 h2
    simp [showMicmacMatches, h1, h2]

theorem C4_precondition_checks_witness :
    showMicmacMatches false "proj" [] [] (FS.mk [] []) =
      (.fnfError "Project path proj does not exist", [], FS.mk [] []) ∧
    showMicmacMatches true "proj" [] [] (FS.mk ["proj"] []) =
      (.fnfError "Homol path proj/Homol does not exist", [], FS.mk ["proj"] []) :=
  ⟨(C4_precondition_checks false "proj" [] [] (FS.mk [] [])).1 (by decide),
   (C4_precondition_checks true "proj" [] [] (FS.mk ["proj"] [])).2 (by decide) (by decide)⟩

/-- C9: when the project directory and `Homol` exist but fewer than two
images match the glob pattern, `show_micmac_matches` performs no match-file
existence check, makes no rendering call, raises no error and returns `None`
(the outcome is `ok` with an empty event trace), in either mode — but it has
still created the `match_figs` output directory. -/
theorem C9_fewer_than_two_images (parallel : Bool) (projectDir : String)
    (globMatches : List String) (kwargs : List (String × Val)) (fs fs' : FS)
    (hproj : fs.pathExists projectDir = true)
    (hhomol : fs.pathExists (pjoin projectDir "Homol") = true)
    (hmk : fs.mkdirP (pjoin projectDir "match_figs") = .ok fs')
    (hlen : globMatches.length < 2) :
    showMicmacMatches parallel projectDir globMatches kwargs fs = (.ok, [], fs') ∧
    fs'.dirs.contains (pjoin projectDir "match_figs") = true := by
  have hlen' : (sortedPaths globMatches).length = globMatches.length :=
    (List.perm_insertionSort _ _).length_eq
  have himg : combinations2 (sortedPaths globMatches) = [] := by
    apply combinations2_nil_of_short
    omega
  refine ⟨?_, mkdirP_ok_contains hmk⟩
  cases parallel <;>
    simp [showMicmacMatches, hproj, hhomol, hmk, himg, runSeqPairs, parParams]

theorem C9_fewer_than_two_images_witness :
    showMicmacMatches false "proj" ["proj/a.tif"] []
        (FS.mk ["proj", "proj/Homol"] []) =
      (.ok, [], FS.mk ["proj", "proj/Homol", "proj/match_figs"] []) :=
  (C9_fewer_than_two_images false "proj" ["proj/a.tif"] []
      (FS.mk ["proj", "proj/Homol"] [])
      (FS.mk ["proj", "proj/Homol", "proj/match_figs"] [])
      (by decide) (by decide) rfl (by decide)).1

/-- C10: when a sequential run aborts with a missing-match-record error, the
filesystem is not rolled back: the final state is the one in which
`match_figs` was already created (its creation precedes every per-pair
existence check), so if `match_figs` was absent before the call the failing
call has still changed the filesystem. -/
theorem C10_no_rollback (projectDir : String) (globMatches : List String)
    (kwargs : List (String × Val)) (fs fs' : FS) (m : String) (evs : List Event)
    (hproj : fs.pathExists projectDir = true)
    (hhomol : fs.pathExists (pjoin projectDir "Homol") = true)
    (hmk : fs.mkdirP (pjoin projectDir "match_figs") = .ok fs')
    (hrun : runSeqPairs (pjoin projectDir "Homol") projectDir
        (pjoin projectDir "match_figs") kwargs fs'
        (combinations2 (sortedPaths globMatches)) = (.fnfError m, evs)) :
    showMicmacMatches false projectDir globMatches kwargs fs = (.fnfError m, evs, fs') ∧
    fs'.dirs.contains (pjoin projectDir "match_figs") = true ∧
    (fs.dirs.contains (pjoin projectDir "match_figs") = false → fs ≠ fs') := by
  refine ⟨?_, mkdirP_ok_contains hmk, ?_⟩
  · simp [showMicmacMatches, hproj, hhomol, hmk, hrun]
  · intro habs heq
    have hc := mkdirP_ok_contains hmk
    rw [heq] at habs
    rw [habs] at hc
    exact Bool.noConfusion hc

theorem C10_no_rollback_witness :
    showMicmacMatches false "proj" ["proj/a.tif", "proj/b.tif"] []
        (FS.mk ["proj", "proj/Homol"] []) =
      (.fnfError "Matches file proj/Homol/Pastisa.tif/b.tif.txt does not exist",
       [.msg "Exporting matches between a.tif and b.tif",
        .checkRecord "proj/Homol/Pastisa.tif/b.tif.txt" false],
       FS.mk ["proj", "proj/Homol", "proj/match_figs"] []) ∧
    FS.mk ["proj", "proj/Homol"] [] ≠
      FS.mk ["proj", "proj/Homol", "proj/match_figs"] [] := by
  have h := C10_no_rollback "proj" ["proj/a.tif", "proj/b.tif"] []
    (FS.mk ["proj", "proj/Homol"] [])
    (FS.mk ["proj", "proj/Homol", "proj/match_figs"] [])
    "Matches file proj/Homol/Pastisa.tif/b.tif.txt does not exist"
    [.msg "Exporting matches between a.tif and b.tif",
     .checkRecord "proj/Homol/Pastisa.tif/b.tif.txt" false]
    (by decide) (by decide) rfl (by decide)
  exact ⟨h.1, h.2.2 (by decide)⟩

/-- C2: in sequential mode, when every pair before `(i0, i1)` in enumeration
order has its match record and the record of `(i0, i1)` is missing, the run
aborts with a `FileNotFoundError` whose message embeds the missing path; the
earlier pairs have each had their rendering call made, while `(i0, i1)` gets
no rendering call and no pair after it is processed at all. -/
theorem C2_sequential_fail_fast (homolPath projectPath matchesDir : String)
    (kwargs : List (String × Val)) (fs : FS)
    (pre post : List (String × String)) (i0 i1 : String)
    (hpre : ∀ p ∈ pre, fs.pathExists
      (pjoin (pjoin homolPath ("Pastis" ++ baseName p.1)) (baseName p.2 ++ ".txt")) = true)
    (hmiss : fs.pathExists
      (pjoin (pjoin homolPath ("Pastis" ++ baseName i0)) (baseName i1 ++ ".txt")) = false) :
    runSeqPairs homolPath projectPath matchesDir kwargs fs (pre ++ (i0, i1) :: post) =
      (.fnfError ("Matches file " ++
          pjoin (pjoin homolPath ("Pastis" ++ baseName i0)) (baseName i1 ++ ".txt") ++
          " does not exist"),
       seqOkTrace homolPath projectPath matchesDir kwargs pre ++
         [.msg ("Exporting matches between " ++ baseName i0 ++ " and " ++ baseName i1),
          .checkRecord
            (pjoin (pjoin homolPath ("Pastis" ++ baseName i0)) (baseName i1 ++ ".txt"))
            false]) := by
  induction pre with
  | nil =>
    simp only [List.nil_append, seqOkTrace]
    simp [runSeqPairs, hmiss]
  | cons q pre ih =>
    obtain ⟨a, b⟩ := q
    have hq := hpre (a, b) (List.mem_cons_self _ _)
    have ih' := ih (fun p hp => hpre p (List.mem_cons_of_mem _ hp))
    simp only [List.cons_append, runSeqPairs, hq, if_true, seqOkTrace]
    simp [List.append_eq, ih', List.append_assoc]

theorem C2_sequential_fail_fast_witness :
    runSeqPairs "p/Homol" "p" "p/match_figs" []
        (FS.mk ["p", "p/Homol", "p/match_figs"] ["p/Homol/Pastisa.tif/b.tif.txt"])
        [("p/a.tif", "p/b.tif"), ("p/a.tif", "p/c.tif"), ("p/b.tif", "p/c.tif")] =
      (.fnfError "Matches file p/Homol/Pastisa.tif/c.tif.txt does not exist",
       [.msg "Exporting matches between a.tif and b.tif",
        .checkRecord "p/Homol/Pastisa.tif/b.tif.txt" true,
        .render
          { pos := [.vpath "p/Homol/Pastisa.tif/b.tif.txt", .vpath "p"],
            kw := [("i0_name", .vstr "a.tif"), ("i1_name", .vstr "b.tif"),
                   ("out", .vpath "p/match_figs/matches_a.tif-b.tif.png")] },
        .msg "Done.",
        .msg "Exporting matches between a.tif and c.tif",
        .checkRecord "p/Homol/Pastisa.tif/c.tif.txt" false]) :=
  (C2_sequential_fail_fast "p/Homol" "p" "p/match_figs" []
      (FS.mk ["p", "p/Homol", "p/match_figs"] ["p/Homol/Pastisa.tif/b.tif.txt"])
      [("p/a.tif", "p/b.tif")] [("p/b.tif", "p/c.tif")] "p/a.tif" "p/c.tif"
      (by decide) (by decide)).trans (by decide)

/-- C3: for a duplicate-free discovered image set, pair enumeration yields
exactly N·(N−1)/2 pairs; every produced pair `(i0, i1)` consists of two
images at positions `i < j` of the image set (so `i0` strictly precedes `i1`
and no self-pair occurs); no pair is repeated and no swapped duplicate of a
pair occurs.  The parallel path dispatches exactly one task per enumerated
pair (both branches of `show_micmac_matches` consume the same
`combinations2 (sortedPaths globMatches)`). -/
theorem C3_pair_enumeration (globMatches : List String)
    (hnd : (sortedPaths globMatches).Nodup) :
    (combinations2 (sortedPaths globMatches)).length =
      (sortedPaths globMatches).length * ((sortedPaths globMatches).length - 1) / 2 ∧
    (∀ p ∈ combinations2 (sortedPaths globMatches),
      ∃ i j : Fin (sortedPaths globMatches).length, (i : ℕ) < (j : ℕ) ∧
        p.1 = (sortedPaths globMatches).get i ∧ p.2 = (sortedPaths globMatches).get j) ∧
    (∀ p ∈ combinations2 (sortedPaths globMatches), p.1 ≠ p.2) ∧
    (combinations2 (sortedPaths globMatches)).Nodup ∧
    (∀ a b, (a, b) ∈ combinations2 (sortedPaths globMatches) →
      (b, a) ∉ combinations2 (sortedPaths globMatches)) ∧
    (∀ homolPath projectPath matchesDir,
      (parParams homolPath projectPath matchesDir
        (combinations2 (sortedPaths globMatches))).length =
      (combinations2 (sortedPaths globMatches)).length) := by
  refine ⟨?_, fun p hp => combinations2_mem_index hp,
    fun p hp => combinations2_no_self hnd hp, combinations2_nodup hnd,
    fun a b hab => combinations2_no_swap hnd hab,
    fun _ _ _ => by simp [parParams]⟩
  rw [combinations2_length, Nat.choose_two_right]

theorem C3_pair_enumeration_witness :
    (combinations2 (sortedPaths ["p/b.tif", "p/a.tif", "p/c.tif"])).length =
      (sortedPaths ["p/b.tif", "p/a.tif", "p/c.tif"]).length *
        ((sortedPaths ["p/b.tif", "p/a.tif", "p/c.tif"]).length - 1) / 2 :=
  (C3_pair_enumeration ["p/b.tif", "p/a.tif", "p/c.tif"] (by decide)).1

theorem matchRecordPath_eq_spec (projectDir n0 n1 : String) :
    pjoin (pjoin (pjoin projectDir "Homol") ("Pastis" ++ n0)) (n1 ++ ".txt") =
      specMatchRecordPath projectDir n0 n1 := by
  apply String.ext
  simp [pjoin, specMatchRecordPath, List.append_assoc]

theorem vizArtifactPath_eq_spec (projectDir n0 n1 : String) :
    pjoin (pjoin projectDir "match_figs") ("matches_" ++ n0 ++ "-" ++ n1 ++ ".png") =
      specVizArtifactPath projectDir n0 n1 := by
  apply String.ext
  simp [pjoin, specVizArtifactPath, List.append_assoc]

/-- C5: the match record path resolved for a pair is exactly
`<project_dir>/Homol/Pastis<i0.name>/<i1.name>.txt` and the output path handed
to the rendering collaborator is exactly
`<project_dir>/match_figs/matches_<i0.name>-<i1.name>.png`, in the sequential
events as well as in the parallel `params` tuples. -/
theorem C5_naming_convention (projectDir i0 i1 : String) (kwargs : List (String × Val)) :
    pjoin (pjoin (pjoin projectDir "Homol") ("Pastis" ++ baseName i0)) (baseName i1 ++ ".txt")
      = specMatchRecordPath projectDir (baseName i0) (baseName i1) ∧
    pjoin (pjoin projectDir "match_figs")
        ("matches_" ++ baseName i0 ++ "-" ++ baseName i1 ++ ".png")
      = specVizArtifactPath projectDir (baseName i0) (baseName i1) ∧
    seqOkEvents (pjoin projectDir "Homol") projectDir (pjoin projectDir "match_figs")
        kwargs i0 i1 =
      [.msg ("Exporting matches between " ++ baseName i0 ++ " and " ++ baseName i1),
       .checkRecord (specMatchRecordPath projectDir (baseName i0) (baseName i1)) true,
       .render
         { pos := [.vpath (specMatchRecordPath projectDir (baseName i0) (baseName i1)),
                   .vpath projectDir],
           kw := [("i0_name", .vstr (baseName i0)), ("i1_name", .vstr (baseName i1)),
                  ("out", .vpath (specVizArtifactPath projectDir (baseName i0)
                    (baseName i1)))] ++ kwargs },
       .msg "Done."] ∧
    parParams (pjoin projectDir "Homol") projectDir (pjoin projectDir "match_figs") [(i0, i1)]
      = [(specMatchRecordPath projectDir (baseName i0) (baseName i1), projectDir,
          specVizArtifactPath projectDir (baseName i0) (baseName i1))] := by
  refine ⟨matchRecordPath_eq_spec projectDir (baseName i0) (baseName i1),
    vizArtifactPath_eq_spec projectDir (baseName i0) (baseName i1), ?_, ?_⟩
  · rw [seqOkEvents, ← matchRecordPath_eq_spec, ← vizArtifactPath_eq_spec]
  · rw [parParams, ← matchRecordPath_eq_spec, ← vizArtifactPath_eq_spec]
    rfl

/-- C7 counterexample: discovery sorts by the full path string, not by
filename.  With matches in two subdirectories, `p/a/z.tif` is discovered
before `p/b/a.tif` although its filename `z.tif` is lexicographically after
`a.tif`, so the discovered sequence is not ordered lexicographically by
filename. -/
theorem C7_counterexample :
    sortedPaths ["p/b/a.tif", "p/a/z.tif"] = ["p/a/z.tif", "p/b/a.tif"] ∧
    baseName "p/a/z.tif" = "z.tif" ∧
    baseName "p/b/a.tif" = "a.tif" ∧
    ¬ pathLe (baseName "p/a/z.tif") (baseName "p/b/a.tif") := by
  decide

/-- C7 (amended): the discovered image set is the glob's matches sorted
lexicographically by full path string; this order is deterministic — any two
runs that see the same collection of matching paths (in whatever order the
glob yields them) discover exactly the same sequence — and the result is a
permutation of the matches, sorted under the path order. -/
theorem C7_deterministic_path_order (l1 l2 : List String) (h : l1.Perm l2) :
    sortedPaths l1 = sortedPaths l2 ∧
    List.Sorted pathLe (sortedPaths l1) ∧
    (sortedPaths l1).Perm l1 := by
  refine ⟨?_, List.sorted_insertionSort pathLe l1, List.perm_insertionSort pathLe l1⟩
  exact List.eq_of_perm_of_sorted
    ((List.perm_insertionSort pathLe l1).trans
      (h.trans (List.perm_insertionSort pathLe l2).symm))
    (List.sorted_insertionSort pathLe l1)
    (List.sorted_insertionSort pathLe l2)

theorem C7_deterministic_path_order_witness :
    sortedPaths ["p/b.tif", "p/a.tif"] = sortedPaths ["p/a.tif", "p/b.tif"] ∧
    List.Sorted pathLe (sortedPaths ["p/b.tif", "p/a.tif"]) ∧
    (sortedPaths ["p/b.tif", "p/a.tif"]).Perm ["p/b.tif", "p/a.tif"] :=
  C7_deterministic_path_order ["p/b.tif", "p/a.tif"] ["p/a.tif", "p/b.tif"] (by decide)

/-- C6 counterexample: the pair-to-output-path map is not injective.  With
image names containing hyphens, the two distinct enumerated pairs
`(p/a, p/b-c)` and `(p/a-b, p/c)` of the duplicate-free discovered set are
both assigned the output path `p/match_figs/matches_a-b-c.png`. -/
theorem C6_counterexample :
    (sortedPaths ["p/a", "p/a-b", "p/b-c", "p/c"]).Nodup ∧
    ("p/a", "p/b-c") ∈ combinations2 (sortedPaths ["p/a", "p/a-b", "p/b-c", "p/c"]) ∧
    ("p/a-b", "p/c") ∈ combinations2 (sortedPaths ["p/a", "p/a-b", "p/b-c", "p/c"]) ∧
    (("p/a", "p/b-c") : String × String) ≠ ("p/a-b", "p/c") ∧
    pjoin (pjoin "p" "match_figs")
        ("matches_" ++ baseName "p/a" ++ "-" ++ baseName "p/b-c" ++ ".png") =
      pjoin (pjoin "p" "match_figs")
        ("matches_" ++ baseName "p/a-b" ++ "-" ++ baseName "p/c" ++ ".png") := by
  decide

/-- C6 (amended): provided the images' filenames are pairwise distinct and
contain no `'-'` character, any two distinct enumerated pairs are assigned
distinct visualization-artifact output paths (the naming map is injective on
the enumerated pairs), so no two parallel workers target the same output
file. -/
theorem C6_output_paths_injective (projectDir : String) (images : List String)
    (hnd : (images.map baseName).Nodup)
    (hhf : ∀ i ∈ images, hyphenFree (baseName i))
    (p q : String × String)
    (hp : p ∈ combinations2 images) (hq : q ∈ combinations2 images) (hne : p ≠ q) :
    pjoin (pjoin projectDir "match_figs")
        ("matches_" ++ baseName p.1 ++ "-" ++ baseName p.2 ++ ".png") ≠
      pjoin (pjoin projectDir "match_figs")
        ("matches_" ++ baseName q.1 ++ "-" ++ baseName q.2 ++ ".png") := by
  intro heq
  have heq' : (pjoin projectDir "match_figs" ++ "/") ++
        ("matches_" ++ baseName p.1 ++ "-" ++ baseName p.2 ++ ".png") =
      (pjoin projectDir "match_figs" ++ "/") ++
        ("matches_" ++ baseName q.1 ++ "-" ++ baseName q.2 ++ ".png") := heq
  have hname := strAppend_left_cancel heq'
  have hinj := outName_inj (hhf p.1 (combinations2_mem_fst hp))
    (hhf q.1 (combinations2_mem_fst hq)) hname
  have h1 := List.inj_on_of_nodup_map hnd (combinations2_mem_fst hp)
    (combinations2_mem_fst hq) hinj.1
  have h2 := List.inj_on_of_nodup_map hnd (combinations2_mem_snd hp)
    (combinations2_mem_snd hq) hinj.2
  exact hne (Prod.ext h1 h2)

theorem C6_output_paths_injective_witness :
    pjoin (pjoin "p" "match_figs")
        ("matches_" ++ baseName "p/a.tif" ++ "-" ++ baseName "p/b.tif" ++ ".png") ≠
      pjoin (pjoin "p" "match_figs")
        ("matches_" ++ baseName "p/a.tif" ++ "-" ++ baseName "p/c.tif" ++ ".png") :=
  C6_output_paths_injective "p" ["p/a.tif", "p/b.tif", "p/c.tif"]
    (by decide) (by decide) ("p/a.tif", "p/b.tif") ("p/a.tif", "p/c.tif")
    (by decide) (by decide) (by decide)

/-- C1 counterexample: the parallel path is not per-pair equivalent to the
sequential path.  On the same input (project and `Homol` present, one image
pair, its match record absent) the sequential path checks the record, raises
the not-found error and makes no rendering call, while the parallel path
performs no existence check, finishes with outcome `ok`, and invokes the
collaborator once — with three positional arguments only, forwarding neither
the image names, nor the `out` keyword, nor the rendering options. -/
theorem C1_counterexample :
    (showMicmacMatches false "proj" ["proj/a.tif", "proj/b.tif"] []
        (FS.mk ["proj", "proj/Homol"] [])).1 =
      .fnfError "Matches file proj/Homol/Pastisa.tif/b.tif.txt does not exist" ∧
    renderCalls (showMicmacMatches false "proj" ["proj/a.tif", "proj/b.tif"] []
        (FS.mk ["proj", "proj/Homol"] [])).2.1 = [] ∧
    (showMicmacMatches true "proj" ["proj/a.tif", "proj/b.tif"] []
        (FS.mk ["proj", "proj/Homol"] [])).1 = .ok ∧
    recordChecks (showMicmacMatches true "proj" ["proj/a.tif", "proj/b.tif"] []
        (FS.mk ["proj", "proj/Homol"] [])).2.1 = [] ∧
    renderCalls (showMicmacMatches true "proj" ["proj/a.tif", "proj/b.tif"] []
        (FS.mk ["proj", "proj/Homol"] [])).2.1 =
      [{ pos := [.vpath "proj/Homol/Pastisa.tif/b.tif.txt", .vpath "proj",
                 .vpath "proj/match_figs/matches_a.tif-b.tif.png"], kw := [] }] := by
  decide

/-- C1 (amended): once the directory checks pass, the parallel path of
`show_micmac_matches` finishes with outcome `ok` whether or not any match
record exists, dispatching exactly one collaborator invocation per enumerated
pair, in enumeration order, carrying the same match-record path and the same
output path the sequential path would use for that pair — but as three
positional arguments only, with no per-pair existence check and without the
image names, the `out` keyword or the forwarded rendering options. -/
theorem C1_parallel_dispatch (projectDir : String) (globMatches : List String)
    (kwargs : List (String × Val)) (fs fs' : FS)
    (hproj : fs.pathExists projectDir = true)
    (hhomol : fs.pathExists (pjoin projectDir "Homol") = true)
    (hmk : fs.mkdirP (pjoin projectDir "match_figs") = .ok fs') :
    showMicmacMatches true projectDir globMatches kwargs fs =
      (.ok,
       (combinations2 (sortedPaths globMatches)).map (fun pr =>
         .render
           { pos := [.vpath (pjoin (pjoin (pjoin projectDir "Homol")
                       ("Pastis" ++ baseName pr.1)) (baseName pr.2 ++ ".txt")),
                     .vpath projectDir,
                     .vpath (pjoin (pjoin projectDir "match_figs")
                       ("matches_" ++ baseName pr.1 ++ "-" ++ baseName pr.2 ++ ".png"))],
             kw := [] }),
       fs') := by
  simp [showMicmacMatches, hproj, hhomol, hmk, parParams, List.map_map]

theorem C1_parallel_dispatch_witness :
    showMicmacMatches true "proj" ["proj/a.tif", "proj/b.tif"] []
        (FS.mk ["proj", "proj/Homol"] []) =
      (.ok,
       [.render
          { pos := [.vpath "proj/Homol/Pastisa.tif/b.tif.txt", .vpath "proj",
                    .vpath "proj/match_figs/matches_a.tif-b.tif.png"], kw := [] }],
       FS.mk ["proj", "proj/Homol", "proj/match_figs"] []) :=
  (C1_parallel_dispatch "proj" ["proj/a.tif", "proj/b.tif"] []
      (FS.mk ["proj", "proj/Homol"] [])
      (FS.mk ["proj", "proj/Homol", "proj/match_figs"] [])
      (by decide) (by decide) rfl).trans (by decide)

end VizMatches
